import Mathlib

/-!
Verification of the STET client library (package `client`): a shallow
embedding of the encrypt/decrypt orchestration, the Cloud KMS wrap/unwrap
helpers, the KEK-URI metadata resolution and the EKM secure-session
wrap/unwrap, in both source variants present in the repository: the
streaming client (`client/client.go`) and the legacy whole-buffer variant.
Bytes are `Nat` values below 256, byte strings are `List Nat`.  External
collaborators (Cloud KMS, the EKM, the RSA key files, JWT issuance, the
AEAD stream and the container codec, which live outside the embedded
sources) are modelled as oracle fields of an `Env` record, so every
function is a pure, executable Lean definition.
-/

namespace Stet

/-! ## CRC32C (Castagnoli), as in `crc32c` of client.go -/

/-- One shift-and-reduce round of the reflected CRC32C computation
(polynomial 0x82F63B78, the Castagnoli polynomial used by
`crc32.MakeTable(crc32.Castagnoli)`). -/
def crc32cRound (c : Nat) : Nat :=
  if c % 2 = 1 then Nat.xor (c / 2) 0x82F63B78 else c / 2

/-- Iterate a function n times. -/
def iterN (f : Nat → Nat) : Nat → Nat → Nat
  | 0, x => x
  | n + 1, x => iterN f n (f x)

/-- Process one byte of input into the running CRC state. -/
def crc32cByte (crc b : Nat) : Nat :=
  iterN crc32cRound 8 (Nat.xor crc (b % 256))

/-- CRC32C checksum of a byte string, as computed by `crc32c` in
client.go via `crc32.Checksum` with the Castagnoli table. -/
def crc32c (data : List Nat) : Nat :=
  Nat.xor (data.foldl crc32cByte 0xFFFFFFFF) 0xFFFFFFFF

/-! ## GF(2^8) arithmetic for the Shamir share codec (package `shares`,
modelled from the spec since the codec is not among the embedded files) -/

/-- One step of Russian-peasant multiplication in GF(2^8) with the AES
reduction polynomial x^8+x^4+x^3+x+1 (0x11B). -/
def gmulStep : Nat × Nat × Nat → Nat × Nat × Nat
  | (a, b, acc) =>
    let acc := if b % 2 = 1 then Nat.xor acc a else acc
    let a := if a ≥ 128 then Nat.xor (a * 2) 0x11B else a * 2
    (a, b / 2, acc)

/-- Run `gmulStep` n times and read off the accumulator. -/
def gmulAux : Nat → Nat × Nat × Nat → Nat
  | 0, s => s.2.2
  | n + 1, s => gmulAux n (gmulStep s)

/-- Multiplication in GF(2^8). -/
def gmul (a b : Nat) : Nat := gmulAux 8 (a % 256, b % 256, 0)

/-- Repeated multiplication, for inverses. -/
def gpowAux : Nat → Nat → Nat → Nat
  | 0, _, acc => acc
  | n + 1, a, acc => gpowAux n a (gmul acc a)

/-- Multiplicative inverse in GF(2^8), via a^254. -/
def ginv (a : Nat) : Nat := gpowAux 254 a 1

/-- Lagrange basis polynomial for node xi evaluated at zero, over the
point list pts. -/
def lagrangeBasisZero (pts : List (Nat × Nat)) (xi : Nat) : Nat :=
  pts.foldl (fun acc q => if q.1 = xi then acc else gmul acc (gmul q.1 (ginv (Nat.xor q.1 xi)))) 1

/-- Lagrange interpolation at x = 0 over GF(2^8). -/
def lagrangeZero (pts : List (Nat × Nat)) : Nat :=
  pts.foldl (fun acc p => Nat.xor acc (gmul p.2 (lagrangeBasisZero pts p.1))) 0

/-! ## Small string helpers mirroring the Go standard library calls -/

/-- Mirrors `strings.HasPrefix`. -/
def strStarts (s pre : String) : Bool := pre.data.isPrefixOf s.data

/-- Mirrors `strings.TrimPrefix`: drop the prefix when present,
otherwise return the string unchanged. -/
def strTrimStart (s pre : String) : String :=
  if strStarts s pre then ⟨s.data.drop pre.data.length⟩ else s

/-- Characters after the last slash, mirroring the effect of
`path.Base` on the URI shapes the client handles. -/
def lastComponent (cs : List Char) : List Char :=
  cs.foldl (fun acc c => if c = '/' then [] else acc ++ [c]) []

/-- Mirrors `path.Base` on slash-separated URIs. -/
def pathBase (s : String) : String := ⟨lastComponent s.data⟩

/-- Characters before the first colon: the URL scheme. -/
def untilColon : List Char → List Char
  | [] => []
  | c :: cs => if c = ':' then [] else c :: untilColon cs

/-- Characters of the host part: after "scheme://", up to the first
slash or colon. -/
def hostPart (cs : List Char) : List Char :=
  let rest := (cs.drop ((untilColon cs).length + 3))
  rest.takeWhile (fun c => c ≠ '/' ∧ c ≠ ':')

/-- Mirrors `parseEKMKeyURI` of client.go: the address
`scheme://hostname` used for the JWT audience, and `path.Base` of the
URI as the key path.  Go's `url.Parse` is modelled as total string
splitting; the error return of the source is unreachable on the URI
shapes the client receives. -/
def parseEKMKeyURI (keyURI : String) : String × String :=
  let scheme := untilColon keyURI.data
  let addr : String := ⟨scheme ++ [':', '/', '/'] ++ hostPart keyURI.data⟩
  (addr, pathBase keyURI)

/-! ## Data model (proto messages of `configpb` and the Cloud KMS API,
restricted to the fields the embedded sources read) -/

/-- The oneof `kek_type` of `KekInfo`. -/
inductive KekType
  | rsaFingerprint (fp : String)
  | kekUri (uri : String)
  deriving DecidableEq, Repr

/-- `KekInfo`: the oneof may be unset, which the sources treat as an
unsupported KekInfo type. -/
structure KekInfo where
  kekType : Option KekType
  deriving DecidableEq, Repr

/-- The oneof `key_splitting_algorithm` of `KeyConfig`. -/
inductive KeySplit
  | noSplit
  | shamir (shares threshold : Nat)
  deriving DecidableEq, Repr

/-- `KeyConfig`: an ordered list of KekInfos and a splitting algorithm
(the oneof may be unset: "Unknown key splitting algorithm"). -/
structure KeyConfig where
  kekInfos : List KekInfo
  split : Option KeySplit
  deriving DecidableEq, Repr

instance : Inhabited KeyConfig := ⟨⟨[], none⟩⟩

/-- `WrappedShare`: wrapped bytes plus the SHA-256 hash of the
plaintext share. -/
structure WrappedShare where
  share : List Nat
  hash : List Nat
  deriving DecidableEq, Repr

/-- `Metadata` attached to an encrypted blob. -/
structure Metadata where
  blobId : String
  keyConfig : KeyConfig
  shares : List WrappedShare
  deriving DecidableEq, Repr

/-- `EncryptConfig`: holds the single `KeyConfig` used to encrypt (the
message field may be unset). -/
structure EncryptConfig where
  keyConfig : Option KeyConfig
  deriving DecidableEq, Repr

/-- `DecryptConfig`: the candidate KeyConfigs for decryption. -/
structure DecryptConfig where
  keyConfigs : List KeyConfig
  deriving DecidableEq, Repr

/-- `AsymmetricKeys` file lists are folded into the RSA oracles of
`Env`; the result of the whole lookup-and-parse pipeline
(`PrivateKeyForRSAFingerprint` / `PublicKeyForRSAFingerprint`) is what
the orchestration observes. -/
structure StetMetadataRes where
  keyUris : List String
  blobId : String
  deriving DecidableEq, Repr

/-- Cloud KMS `ProtectionLevel` enum values the client can encounter. -/
inductive ProtectionLevel
  | unspecified
  | software
  | hsm
  | external
  | externalVm
  deriving DecidableEq, Repr

/-- Cloud KMS `CryptoKeyVersionState`, restricted to what the client
distinguishes: ENABLED versus anything else. -/
inductive KeyVersionState
  | stateUnspecified
  | enabled
  | disabled
  deriving DecidableEq, Repr

/-- `ExternalProtectionLevelOptions` of a CryptoKeyVersion. -/
structure ExternalProtectionLevelOptions where
  externalKeyUri : String
  deriving DecidableEq, Repr

/-- The primary `CryptoKeyVersion` of a CryptoKey. -/
structure CryptoKeyVersion where
  state : KeyVersionState
  protectionLevel : ProtectionLevel
  externalProtectionLevelOptions : Option ExternalProtectionLevelOptions
  deriving DecidableEq, Repr

/-- A Cloud KMS `CryptoKey`; `primary` may be absent (a nil message in
Go, whose nil-safe getters then report an unspecified state). -/
structure CryptoKey where
  primary : Option CryptoKeyVersion
  deriving DecidableEq, Repr

/-- Cloud KMS `EncryptRequest` as built by `wrapKMSShare`. -/
structure EncryptRequest where
  name : String
  plaintext : List Nat
  plaintextCrc32C : Int
  deriving DecidableEq, Repr

/-- Cloud KMS `EncryptResponse` fields read by `wrapKMSShare`. -/
structure EncryptResponse where
  ciphertext : List Nat
  ciphertextCrc32C : Int
  verifiedPlaintextCrc32C : Bool
  deriving DecidableEq, Repr

/-- Cloud KMS `DecryptRequest` as built by `unwrapKMSShare`. -/
structure DecryptRequest where
  name : String
  ciphertext : List Nat
  ciphertextCrc32C : Int
  deriving DecidableEq, Repr

/-- Cloud KMS `DecryptResponse`: the fields the client reads
(`plaintext`, `plaintext_crc32c`) plus, as ghost state, whether the
server verified the request's ciphertext checksum.  The consumed RPC
surface exposes no such acknowledgement field on the symmetric decrypt
path and `unwrapKMSShare` reads none, so the ghost bit records the
server-side fact the specification speaks of without influencing the
client. -/
structure DecryptResponse where
  plaintext : List Nat
  plaintextCrc32C : Int
  verifiedCiphertextCrc32C : Bool
  deriving DecidableEq, Repr

/-- `kekMetadata` of client.go: protection level, the URI to report
(KMS URI for SOFTWARE/HSM, external key URI for EXTERNAL), and the KMS
resource name. -/
structure KekMetadata where
  protectionLevel : ProtectionLevel
  uri : String
  resourceName : String
  deriving DecidableEq, Repr

instance : Inhabited KekMetadata := ⟨⟨.unspecified, "", ""⟩⟩

/-- `shares.UnwrappedShare` of the streaming client: plaintext share
bytes plus the URI used to unwrap it (empty for RSA shares). -/
structure UnwrappedShare where
  share : List Nat
  uri : String
  deriving DecidableEq, Repr

/-- `EncryptedData` of the legacy variant: ciphertext plus metadata. -/
structure EncryptedData where
  ciphertext : List Nat
  metadata : Metadata
  deriving DecidableEq, Repr

/-- `DecryptedData` of the legacy variant. -/
structure DecryptedData where
  plaintext : List Nat
  keyUris : List String
  blobId : String
  deriving DecidableEq, Repr

/-- Error kinds of the embedded client functions.  Each constructor
stands for one `fmt.Errorf` site (sites that wrap an underlying error
carry it). -/
inductive Err
  | nilEncryptConfig
  | nilDecryptConfig
  | readMetadataFailed
  | noMatchingKeyConfig
  | countMismatch (haveShares haveKeks : Nat)
  | noMatchingRsaKey
  | rsaWrapFailed
  | rsaUnwrapFailed
  | kmsInitFailed
  | notKekUri
  | badUriScheme (uri : String)
  | getCryptoKeyFailed
  | kekNotEnabled
  | unspecifiedProtectionLevel
  | missingExternalOptions
  | retrievingKekMetadata (e : Err)
  | kmsEncryptRpcFailed
  | encryptRequestCorrupted
  | encryptResponseCorrupted
  | kmsDecryptRpcFailed
  | decryptResponseCorrupted
  | tokenFailed
  | establishSessionFailed
  | confidentialWrapFailed
  | confidentialUnwrapFailed
  | endSessionFailed
  | unsupportedProtectionLevel
  | unsupportedKekType
  | shareHashMismatch (index : Nat)
  | wrapSharesFailed (e : Err)
  | unwrapSharesFailed (e : Err)
  | creatingShares (e : Err)
  | combineFailed (e : Err)
  | serializeMetadataFailed
  | aeadEncryptFailed
  | aeadDecryptFailed
  | invalidNoSplitConfig
  | shamirKekCountMismatch
  | unknownSplitAlgorithm
  | invalidSplitParams
  | insufficientShares
  | duplicateShare
  | lengthMismatch
  | malformedShare
  | noSplitShareCount
  | dekLengthWrong
  deriving DecidableEq, Repr

/-- Events observable on the EKM secure-session interface, for the
teardown claims. -/
inductive EkmEvent
  | confidentialWrap
  | confidentialUnwrap
  | endSession
  deriving DecidableEq, Repr

/-- I/O effects of the streaming orchestrator on its `input` reader and
`output` writer. -/
inductive Effect
  | readIn
  | writeOut (bytes : List Nat)
  deriving DecidableEq, Repr

/-- The environment: every external collaborator of the embedded
functions, as oracles.  RSA key-file scanning and OAEP, the Tink AEAD,
the container codec, proto serialisation, JWT issuance, the secure
session transport and the Cloud KMS service all live outside the
embedded sources. -/
structure Env where
  /-- GetCryptoKey by resource name; none is an RPC error. -/
  kms : String → Option CryptoKey
  /-- The Cloud KMS Encrypt RPC. -/
  kmsEncrypt : EncryptRequest → Option EncryptResponse
  /-- The Cloud KMS Decrypt RPC. -/
  kmsDecrypt : DecryptRequest → Option DecryptResponse
  /-- Whether initializeKMSClient succeeds. -/
  initKmsOk : Bool
  /-- PublicKeyForRSAFingerprint: fingerprint to an abstract key handle. -/
  findPublicKey : String → Option Nat
  /-- rsa.EncryptOAEP with a found public key. -/
  rsaEncrypt : Nat → List Nat → Option (List Nat)
  /-- PrivateKeyForRSAFingerprint. -/
  findPrivateKey : String → Option Nat
  /-- rsa.DecryptOAEP with a found private key. -/
  rsaDecrypt : Nat → List Nat → Option (List Nat)
  /-- JWT issuance for an audience; none is a token error. -/
  jwtToken : String → Option String
  /-- Whether EstablishSecureSession succeeds for a key URI. -/
  establish : String → Bool
  /-- ConfidentialWrap(keyPath, resourceName, plaintext). -/
  ekmWrap : String → String → List Nat → Option (List Nat)
  /-- ConfidentialUnwrap(keyPath, resourceName, wrappedBlob). -/
  ekmUnwrap : String → String → List Nat → Option (List Nat)
  /-- Whether EndSession succeeds for a key URI. -/
  ekmEndOk : String → Bool
  /-- shares.HashShare: SHA-256 of a share, abstracted. -/
  hashShare : List Nat → List Nat
  /-- MetadataToAAD; none is a serialisation error. -/
  metadataToAAD : Metadata → Option (List Nat)
  /-- proto.Marshal of the metadata. -/
  marshalMeta : Metadata → List Nat
  /-- AeadEncrypt(dek, plaintext, aad); none is an AEAD error. -/
  aeadEncrypt : List Nat → List Nat → List Nat → Option (List Nat)
  /-- AeadDecrypt(dek, ciphertext, aad); none is an AEAD error. -/
  aeadDecrypt : List Nat → List Nat → List Nat → Option (List Nat)
  /-- ReadMetadata applied to the input stream. -/
  readMetadata : List Nat → Option Metadata
  /-- The freshly generated 32-byte DEK. -/
  newDEK : List Nat
  /-- uuid.NewString. -/
  newUUID : String
  /-- Randomness for the Shamir coefficients: byte index, coefficient
  index. -/
  shamirCoeffs : Nat → Nat → Nat

/-! ## Share codec (package `shares`), modelled from the spec: the
package is part of this repository but not among the embedded files. -/

/-- The URI scheme marking GCP KMS keys in KEK URIs. -/
def gcpKeyUriScheme : String := "gcp-kms://"

/-- DEKBytes: the DEK is 32 bytes. -/
def DEKBytes : Nat := 32

/-- Modelled from the spec: `ValidateShare` of the share codec (not
under the embedded sources) compares the SHA-256 hash of the unwrapped
share with the expected hash in constant time.  The hash function
itself is the `hashShare` oracle. -/
def ValidateShare (h : List Nat → List Nat) (share expected : List Nat) : Bool :=
  h share = expected

/-- Evaluate the per-byte Shamir polynomial (constant term: the secret
byte; k-1 random coefficients) at x, by Horner's rule over GF(2^8). -/
def evalShamir (coeffs : Nat → Nat → Nat) (byteIdx b k x : Nat) : Nat :=
  (b % 256 :: (List.range (k - 1)).map (fun j => coeffs byteIdx j % 256)).foldr
    (fun c acc => Nat.xor c (gmul acc x)) 0

/-- Modelled from the spec: `SplitShares` of the share codec (not
under the embedded sources) splits a secret into n Shamir shares with
threshold k.  It validates 2 ≤ k ≤ n ≤ 255 and emits, for each
x-coordinate 1..n, one byte of x followed by the per-byte polynomial
evaluations. -/
def SplitShares (coeffs : Nat → Nat → Nat) (secret : List Nat) (n k : Nat) :
    Except Err (List (List Nat)) :=
  if 2 ≤ k ∧ k ≤ n ∧ n ≤ 255 then
    .ok ((List.range n).map (fun i =>
      (i + 1) :: (secret.enum.map (fun bi => evalShamir coeffs bi.1 bi.2 k (i + 1)))))
  else .error .invalidSplitParams

/-- Reconstruct the secret bytes from the selected shares by Lagrange
interpolation at zero, byte position by byte position. -/
def interpolateShares (sel : List (List Nat)) : List Nat :=
  (List.range ((sel.headD []).length - 1)).map (fun p =>
    lagrangeZero (sel.map (fun s => (s.headD 0, s.getD (p + 1) 0))))

/-- Modelled from the spec: Shamir `combine` of the share codec (not
under the embedded sources).  Fails with MalformedShare when a share is
shorter than 2 bytes, LengthMismatch when lengths disagree,
DuplicateShare when an x-coordinate repeats and InsufficientShares when
fewer than k distinct x-coordinates are present; with more than k
shares it uses the first k by input order. -/
def shamirCombine (k : Nat) (ls : List (List Nat)) : Except Err (List Nat) :=
  if ls.any (fun s => s.length < 2) then .error .malformedShare
  else if ls.all (fun s => s.length = (ls.headD []).length) = false then .error .lengthMismatch
  else if (ls.map (fun s => s.headD 0)).dedup.length ≠ (ls.map (fun s => s.headD 0)).length then
    .error .duplicateShare
  else if (ls.map (fun s => s.headD 0)).dedup.length < k then .error .insufficientShares
  else .ok (interpolateShares (ls.take k))

/-- Modelled from the spec: `CombineUnwrappedShares` of the share codec
(not under the embedded sources), called by the streaming Decrypt.
No-split expects exactly one share; Shamir combines with the threshold
of the matching KeyConfig. -/
def CombineUnwrappedShares (cfg : KeyConfig) (us : List UnwrappedShare) :
    Except Err (List Nat) :=
  match cfg.split with
  | some .noSplit =>
    match us with
    | [u] => .ok u.share
    | _ => .error .noSplitShareCount
  | some (.shamir _ k) => shamirCombine k (us.map (fun u => u.share))
  | none => .error .unknownSplitAlgorithm

/-- Modelled from the spec: `CombineShares` of the legacy variant (the
share codec is not under the embedded sources); it receives no
threshold and interpolates over all provided shares. -/
def CombineSharesLegacy (ls : List (List Nat)) : Except Err (List Nat) :=
  shamirCombine ls.length ls

/-- Modelled from the spec: `CreateDEKShares` of the share codec (not
under the embedded sources), called by the streaming Encrypt; it
performs the same KeyConfig dispatch the legacy Encrypt has inline. -/
def CreateDEKShares (coeffs : Nat → Nat → Nat) (dek : List Nat) (cfg : KeyConfig) :
    Except Err (List (List Nat)) :=
  match cfg.split with
  | some .noSplit =>
    if cfg.kekInfos.length ≠ 1 then .error .invalidNoSplitConfig else .ok [dek]
  | some (.shamir n k) =>
    if cfg.kekInfos.length ≠ n then .error .shamirKekCountMismatch
    else SplitShares coeffs dek n k
  | none => .error .unknownSplitAlgorithm

/-- The `copy(combinedDEK[:], combinedShares)` of the streaming
Decrypt: a 32-byte array receives the first 32 bytes, zero-padded. -/
def fixDEK (l : List Nat) : List Nat :=
  l.take DEKBytes ++ List.replicate (DEKBytes - l.length) 0

/-! ## KEK metadata resolution -/

/-- `getKekURIMetadata` of client.go: resolve a KekUri KEK against
Cloud KMS.  Requires the gcp-kms:// scheme, an ENABLED primary version
and a specified protection level; an EXTERNAL key must carry external
protection level options, whose external key URI is then recorded,
while other levels record the KEK URI itself. -/
def getKekURIMetadata (kms : String → Option CryptoKey) (kekInfo : KekInfo) :
    Except Err KekMetadata :=
  match kekInfo.kekType with
  | some (.kekUri uri) =>
    if strStarts uri gcpKeyUriScheme = false then .error (.badUriScheme uri)
    else
      match kms (strTrimStart uri gcpKeyUriScheme) with
      | none => .error .getCryptoKeyFailed
      | some cryptoKey =>
        match cryptoKey.primary with
        | none => .error .kekNotEnabled
        | some ver =>
          if ver.state ≠ .enabled then .error .kekNotEnabled
          else if ver.protectionLevel = .unspecified then .error .unspecifiedProtectionLevel
          else if ver.protectionLevel = .external then
            match ver.externalProtectionLevelOptions with
            | none => .error .missingExternalOptions
            | some opts =>
              .ok { protectionLevel := ver.protectionLevel
                    uri := opts.externalKeyUri
                    resourceName := strTrimStart uri gcpKeyUriScheme }
          else
            .ok { protectionLevel := ver.protectionLevel
                  uri := uri
                  resourceName := strTrimStart uri gcpKeyUriScheme }
  | _ => .error .notKekUri

/-- `protectionLevelsAndUris` of the legacy variant: resolve every
KekInfo of the list at once; non-URI KEKs get a zero-valued
kekMetadata. -/
def protectionLevelsAndUris (kms : String → Option CryptoKey) :
    List KekInfo → Except Err (List KekMetadata)
  | [] => .ok []
  | kekInfo :: rest =>
    let kmdE : Except Err KekMetadata :=
      match kekInfo.kekType with
      | some (.kekUri uri) =>
        if strStarts uri gcpKeyUriScheme = false then .error (.badUriScheme uri)
        else
          match kms (strTrimStart uri gcpKeyUriScheme) with
          | none => .error .getCryptoKeyFailed
          | some cryptoKey =>
            match cryptoKey.primary with
            | none => .error .kekNotEnabled
            | some ver =>
              if ver.state ≠ .enabled then .error .kekNotEnabled
              else if ver.protectionLevel = .unspecified then .error .unspecifiedProtectionLevel
              else if ver.protectionLevel = .external then
                match ver.externalProtectionLevelOptions with
                | none => .error .missingExternalOptions
                | some opts =>
                  .ok { protectionLevel := ver.protectionLevel
                        uri := opts.externalKeyUri
                        resourceName := strTrimStart uri gcpKeyUriScheme }
              else
                .ok { protectionLevel := ver.protectionLevel
                      uri := uri
                      resourceName := strTrimStart uri gcpKeyUriScheme }
      | _ => .ok default
    match kmdE with
    | .error e => .error e
    | .ok kmd =>
      match protectionLevelsAndUris kms rest with
      | .error e => .error e
      | .ok kmds => .ok (kmd :: kmds)

/-! ## Cloud KMS wrap/unwrap -/

/-- `wrapKMSShare`: attach the CRC32C of the plaintext to the Encrypt
request; on the response, require the server-verified flag for the
request checksum and recompute the ciphertext checksum. -/
def wrapKMSShare (env : Env) (share : List Nat) (keyName : String) :
    Except Err (List Nat) :=
  let req : EncryptRequest :=
    { name := keyName, plaintext := share, plaintextCrc32C := Int.ofNat (crc32c share) }
  match env.kmsEncrypt req with
  | none => .error .kmsEncryptRpcFailed
  | some result =>
    if result.verifiedPlaintextCrc32C = false then .error .encryptRequestCorrupted
    else if Int.ofNat (crc32c result.ciphertext) ≠ result.ciphertextCrc32C then
      .error .encryptResponseCorrupted
    else .ok result.ciphertext

/-- `unwrapKMSShare`: attach the CRC32C of the ciphertext to the
Decrypt request; on the response, recompute the plaintext checksum.
The response's server-verified flag for the request checksum is never
read. -/
def unwrapKMSShare (env : Env) (wrappedShare : List Nat) (keyName : String) :
    Except Err (List Nat) :=
  let req : DecryptRequest :=
    { name := keyName, ciphertext := wrappedShare
      ciphertextCrc32C := Int.ofNat (crc32c wrappedShare) }
  match env.kmsDecrypt req with
  | none => .error .kmsDecryptRpcFailed
  | some result =>
    if Int.ofNat (crc32c result.plaintext) ≠ result.plaintextCrc32C then
      .error .decryptResponseCorrupted
    else .ok result.plaintext

/-! ## EKM secure-session wrap/unwrap -/

/-- `ekmSecureSessionWrap`: obtain a bearer token for the EKM address,
establish a secure session, ConfidentialWrap the share and then end the
session; an EndSession failure is returned as the operation's error.
The second component records the EKM operations performed. -/
def ekmSecureSessionWrap (env : Env) (unwrappedShare : List Nat) (md : KekMetadata) :
    Except Err (List Nat) × List EkmEvent :=
  let addr := (parseEKMKeyURI md.uri).1
  let keyPath := (parseEKMKeyURI md.uri).2
  match env.jwtToken addr with
  | none => (.error .tokenFailed, [])
  | some _ =>
    if env.establish md.uri = false then (.error .establishSessionFailed, [])
    else
      match env.ekmWrap keyPath md.resourceName unwrappedShare with
      | none => (.error .confidentialWrapFailed, [.confidentialWrap])
      | some wrappedBlob =>
        if env.ekmEndOk md.uri then (.ok wrappedBlob, [.confidentialWrap, .endSession])
        else (.error .endSessionFailed, [.confidentialWrap, .endSession])

/-- `ekmSecureSessionUnwrap`: the decrypting counterpart, with the same
session lifecycle. -/
def ekmSecureSessionUnwrap (env : Env) (wrappedShare : List Nat) (md : KekMetadata) :
    Except Err (List Nat) × List EkmEvent :=
  let addr := (parseEKMKeyURI md.uri).1
  let keyPath := (parseEKMKeyURI md.uri).2
  match env.jwtToken addr with
  | none => (.error .tokenFailed, [])
  | some _ =>
    if env.establish md.uri = false then (.error .establishSessionFailed, [])
    else
      match env.ekmUnwrap keyPath md.resourceName wrappedShare with
      | none => (.error .confidentialUnwrapFailed, [.confidentialUnwrap])
      | some unwrappedBlob =>
        if env.ekmEndOk md.uri then (.ok unwrappedBlob, [.confidentialUnwrap, .endSession])
        else (.error .endSessionFailed, [.confidentialUnwrap, .endSession])

/-! ## Streaming client: wrapShares and unwrapAndValidateShares -/

/-- One iteration of the wrap loop of the streaming `wrapShares`: wrap
one share under its KekInfo, producing the WrappedShare and, for KMS
KEKs, the URI to report.  Every failure is fatal on the encrypt path. -/
def wrapOne (env : Env) (share : List Nat) (kek : KekInfo) :
    Except Err (WrappedShare × Option String) :=
  match kek.kekType with
  | some (.rsaFingerprint fp) =>
    match env.findPublicKey fp with
    | none => .error .noMatchingRsaKey
    | some key =>
      match env.rsaEncrypt key share with
      | none => .error .rsaWrapFailed
      | some c => .ok ({ share := c, hash := env.hashShare share }, none)
  | some (.kekUri _) =>
    if env.initKmsOk = false then .error .kmsInitFailed
    else
      match getKekURIMetadata env.kms kek with
      | .error e => .error (.retrievingKekMetadata e)
      | .ok kmd =>
        match kmd.protectionLevel with
        | .software =>
          match wrapKMSShare env share kmd.resourceName with
          | .error e => .error e
          | .ok c => .ok ({ share := c, hash := env.hashShare share }, some kmd.uri)
        | .hsm =>
          match wrapKMSShare env share kmd.resourceName with
          | .error e => .error e
          | .ok c => .ok ({ share := c, hash := env.hashShare share }, some kmd.uri)
        | .external =>
          match (ekmSecureSessionWrap env share kmd).1 with
          | .error e => .error e
          | .ok c => .ok ({ share := c, hash := env.hashShare share }, some kmd.uri)
        | _ => .error .unsupportedProtectionLevel
  | none => .error .unsupportedKekType

/-- The wrap loop over positionally paired shares and KekInfos. -/
def wrapLoop (env : Env) :
    List (List Nat) → List KekInfo → Except Err (List WrappedShare × List String)
  | [], _ => .ok ([], [])
  | _ :: _, [] => .ok ([], [])
  | s :: ss, kek :: ks =>
    match wrapOne env s kek with
    | .error e => .error e
    | .ok (w, uriOpt) =>
      match wrapLoop env ss ks with
      | .error e => .error e
      | .ok (ws, uris) => .ok (w :: ws, uriOpt.toList ++ uris)

/-- `wrapShares` of the streaming client: checks the share/KEK counts
and wraps each share in order, accumulating the KMS key URIs used. -/
def wrapShares (env : Env) (unwrappedShares : List (List Nat)) (kekInfos : List KekInfo) :
    Except Err (List WrappedShare × List String) :=
  if unwrappedShares.length ≠ kekInfos.length then
    .error (.countMismatch unwrappedShares.length kekInfos.length)
  else wrapLoop env unwrappedShares kekInfos

/-- Outcome of one iteration of the streaming unwrap loop: a failure
that aborts the whole call, a failure that skips the share and
continues, or an unwrapped share retained for reconstruction. -/
inductive StepOut
  | fatal (e : Err)
  | skip
  | keep (u : UnwrappedShare)
  deriving DecidableEq, Repr

/-- After the KEK dispatch, the streaming unwrap loop validates the
share hash before retaining the share; a mismatch skips the share. -/
def finishStep (env : Env) (wrapped : WrappedShare) (u : UnwrappedShare) : StepOut :=
  if ValidateShare env.hashShare u.share wrapped.hash then .keep u else .skip

/-- The RsaFingerprint arm of the streaming unwrap loop body: a missing
private key or a failed OAEP decryption skips the share; the unwrapped
share carries no URI. -/
def unwrapRsaArm (env : Env) (wrapped : WrappedShare) (fp : String) : StepOut :=
  match env.findPrivateKey fp with
  | none => .skip
  | some key =>
    match env.rsaDecrypt key wrapped.share with
    | none => .skip
    | some s => finishStep env wrapped { share := s, uri := "" }

/-- The protection-level dispatch of the streaming unwrap loop body,
run after KEK metadata resolution succeeded: a failed KMS unwrap RPC, a
failed confidential unwrap or an unsupported protection level skips the
share; the unwrapped share carries the resolved URI. -/
def unwrapKmsArm (env : Env) (wrapped : WrappedShare) (kmd : KekMetadata) : StepOut :=
  match kmd.protectionLevel with
  | .software =>
    match unwrapKMSShare env wrapped.share kmd.resourceName with
    | .error _ => .skip
    | .ok s => finishStep env wrapped { share := s, uri := kmd.uri }
  | .hsm =>
    match unwrapKMSShare env wrapped.share kmd.resourceName with
    | .error _ => .skip
    | .ok s => finishStep env wrapped { share := s, uri := kmd.uri }
  | .external =>
    match (ekmSecureSessionUnwrap env wrapped.share kmd).1 with
    | .error _ => .skip
    | .ok s => finishStep env wrapped { share := s, uri := kmd.uri }
  | _ => .skip

/-- One iteration of the streaming `unwrapAndValidateShares` loop.
RSA lookup/decrypt failures, KMS client initialisation failures, KMS
unwrap RPC failures, confidential-unwrap failures, unsupported
protection levels, unsupported KekInfo types and hash mismatches are
logged and skipped; a `getKekURIMetadata` failure is returned and
aborts the call. -/
def unwrapOne (env : Env) (wrapped : WrappedShare) (kek : KekInfo) : StepOut :=
  match kek.kekType with
  | some (.rsaFingerprint fp) => unwrapRsaArm env wrapped fp
  | some (.kekUri _) =>
    if env.initKmsOk = false then .skip
    else
      match getKekURIMetadata env.kms kek with
      | .error e => .fatal (.retrievingKekMetadata e)
      | .ok kmd => unwrapKmsArm env wrapped kmd
  | none => .skip

/-- The streaming unwrap loop over positionally paired WrappedShares
and KekInfos. -/
def unwrapLoop (env : Env) :
    List WrappedShare → List KekInfo → Except Err (List UnwrappedShare)
  | [], _ => .ok []
  | _ :: _, [] => .ok []
  | w :: ws, kek :: ks =>
    match unwrapOne env w kek with
    | .fatal e => .error e
    | .skip => unwrapLoop env ws ks
    | .keep u =>
      match unwrapLoop env ws ks with
      | .error e => .error e
      | .ok us => .ok (u :: us)

/-- `unwrapAndValidateShares` of the streaming client. -/
def unwrapAndValidateShares (env : Env) (wrappedShares : List WrappedShare)
    (kekInfos : List KekInfo) : Except Err (List UnwrappedShare) :=
  if wrappedShares.length ≠ kekInfos.length then
    .error (.countMismatch wrappedShares.length kekInfos.length)
  else unwrapLoop env wrappedShares kekInfos

/-! ## Streaming orchestrators -/

/-- The STET container header: magic "STET", version 1, three reserved
zero bytes, then the metadata length as a little-endian uint32.
Modelled from the spec: `WriteSTETHeader` is part of this repository
but not among the embedded files. -/
def stetHeader (metadataLen : Nat) : List Nat :=
  [0x53, 0x54, 0x45, 0x54, 0x01, 0, 0, 0] ++
    [metadataLen % 256, metadataLen / 256 % 256,
     metadataLen / 2 ^ 16 % 256, metadataLen / 2 ^ 24 % 256]

/-- `Encrypt` of the streaming client.  The effect list records, in
order, the writes to `output` and the read of `input` (performed inside
the AEAD stream); output writes themselves are assumed to succeed. -/
def EncryptS (env : Env) (input : List Nat) (config : Option EncryptConfig)
    (blobID : String) : Except Err StetMetadataRes × List Effect :=
  match config with
  | none => (.error .nilEncryptConfig, [])
  | some cfg =>
    let keyCfg := cfg.keyConfig.getD default
    let dek := env.newDEK
    match CreateDEKShares env.shamirCoeffs dek keyCfg with
    | .error e => (.error (.creatingShares e), [])
    | .ok shareList =>
      let bid := if blobID = "" then env.newUUID else blobID
      match wrapShares env shareList keyCfg.kekInfos with
      | .error e => (.error (.wrapSharesFailed e), [])
      | .ok (ws, uris) =>
        let md : Metadata := { blobId := bid, keyConfig := keyCfg, shares := ws }
        match env.metadataToAAD md with
        | none => (.error .serializeMetadataFailed, [])
        | some aad =>
          let mbytes := env.marshalMeta md
          match env.aeadEncrypt dek input aad with
          | none =>
            (.error .aeadEncryptFailed,
             [.writeOut (stetHeader mbytes.length), .writeOut mbytes, .readIn])
          | some ct =>
            (.ok { keyUris := uris, blobId := bid },
             [.writeOut (stetHeader mbytes.length), .writeOut mbytes, .readIn, .writeOut ct])

/-- `Decrypt` of the streaming client.  Reads the container metadata,
selects the config KeyConfig equal to the metadata's, unwraps and
validates the shares, reconstructs the DEK, AEAD-decrypts, and reports
the non-empty URIs of the retained shares. -/
def DecryptS (env : Env) (input : List Nat) (config : Option DecryptConfig) :
    Except Err StetMetadataRes × List Effect :=
  match config with
  | none => (.error .nilDecryptConfig, [])
  | some cfg =>
    match env.readMetadata input with
    | none => (.error .readMetadataFailed, [.readIn])
    | some md =>
      match cfg.keyConfigs.find? (fun kc => decide (kc = md.keyConfig)) with
      | none => (.error .noMatchingKeyConfig, [.readIn])
      | some matching =>
        match unwrapAndValidateShares env md.shares matching.kekInfos with
        | .error e => (.error (.unwrapSharesFailed e), [.readIn])
        | .ok us =>
          match CombineUnwrappedShares matching us with
          | .error e => (.error (.combineFailed e), [.readIn])
          | .ok combined =>
            match env.metadataToAAD md with
            | none => (.error .serializeMetadataFailed, [.readIn])
            | some aad =>
              match env.aeadDecrypt (fixDEK combined) input aad with
              | none => (.error .aeadDecryptFailed, [.readIn, .readIn])
              | some pt =>
                (.ok { keyUris := us.filterMap (fun u => if u.uri = "" then none else some u.uri)
                       blobId := md.blobId },
                 [.readIn, .readIn, .writeOut pt])

/-! ## Legacy whole-buffer variant -/

/-- The wrap loop of the legacy `wrapShares`: the kekMetadata list is
resolved for all KekInfos at once via `protectionLevelsAndUris` and
indexed positionally.  All failures are fatal. -/
def wrapLegacyLoop (env : Env) (kekInfos : List KekInfo) :
    Nat → List (List Nat) → List KekInfo → Except Err (List WrappedShare)
  | _, [], _ => .ok []
  | _, _ :: _, [] => .ok []
  | i, s :: ss, kek :: ks =>
    let wrappedE : Except Err (List Nat) :=
      match kek.kekType with
      | some (.rsaFingerprint fp) =>
        match env.findPublicKey fp with
        | none => .error .noMatchingRsaKey
        | some key =>
          match env.rsaEncrypt key s with
          | none => .error .rsaWrapFailed
          | some c => .ok c
      | some (.kekUri _) =>
        if env.initKmsOk = false then .error .kmsInitFailed
        else
          match protectionLevelsAndUris env.kms kekInfos with
          | .error e => .error (.retrievingKekMetadata e)
          | .ok kmds =>
            let kmd := kmds.getD i default
            match kmd.protectionLevel with
            | .software => wrapKMSShare env s kmd.resourceName
            | .hsm => wrapKMSShare env s kmd.resourceName
            | .external => (ekmSecureSessionWrap env s kmd).1
            | _ => .error .unsupportedProtectionLevel
      | none => .error .unsupportedKekType
    match wrappedE with
    | .error e => .error e
    | .ok c =>
      match wrapLegacyLoop env kekInfos (i + 1) ss ks with
      | .error e => .error e
      | .ok rest => .ok ({ share := c, hash := env.hashShare s } :: rest)

/-- `wrapShares` of the legacy variant. -/
def wrapSharesLegacy (env : Env) (unwrappedShares : List (List Nat))
    (kekInfos : List KekInfo) : Except Err (List WrappedShare) :=
  if unwrappedShares.length ≠ kekInfos.length then
    .error (.countMismatch unwrappedShares.length kekInfos.length)
  else wrapLegacyLoop env kekInfos 0 unwrappedShares kekInfos

/-- The unwrap loop of the legacy `unwrapAndValidateShares`: every
failure, including a hash mismatch, aborts the whole call. -/
def unwrapLegacyLoop (env : Env) (kekInfos : List KekInfo) :
    Nat → List WrappedShare → List KekInfo → Except Err (List (List Nat))
  | _, [], _ => .ok []
  | _, _ :: _, [] => .ok []
  | i, wrapped :: ws, kek :: ks =>
    let unwrappedE : Except Err (List Nat) :=
      match kek.kekType with
      | some (.rsaFingerprint fp) =>
        match env.findPrivateKey fp with
        | none => .error .noMatchingRsaKey
        | some key =>
          match env.rsaDecrypt key wrapped.share with
          | none => .error .rsaUnwrapFailed
          | some s => .ok s
      | some (.kekUri _) =>
        if env.initKmsOk = false then .error .kmsInitFailed
        else
          match protectionLevelsAndUris env.kms kekInfos with
          | .error e => .error (.retrievingKekMetadata e)
          | .ok kmds =>
            let kmd := kmds.getD i default
            match kmd.protectionLevel with
            | .software => unwrapKMSShare env wrapped.share kmd.resourceName
            | .hsm => unwrapKMSShare env wrapped.share kmd.resourceName
            | .external => (ekmSecureSessionUnwrap env wrapped.share kmd).1
            | _ => .error .unsupportedProtectionLevel
      | none => .error .unsupportedKekType
    match unwrappedE with
    | .error e => .error e
    | .ok s =>
      if ValidateShare env.hashShare s wrapped.hash = false then
        .error (.shareHashMismatch i)
      else
        match unwrapLegacyLoop env kekInfos (i + 1) ws ks with
        | .error e => .error e
        | .ok rest => .ok (s :: rest)

/-- `unwrapAndValidateShares` of the legacy variant. -/
def unwrapAndValidateSharesLegacy (env : Env) (wrappedShares : List WrappedShare)
    (kekInfos : List KekInfo) : Except Err (List (List Nat)) :=
  if wrappedShares.length ≠ kekInfos.length then
    .error (.countMismatch wrappedShares.length kekInfos.length)
  else unwrapLegacyLoop env kekInfos 0 wrappedShares kekInfos

/-- `Encrypt` of the legacy variant: the KeyConfig dispatch (no-split
requires exactly one KekInfo; Shamir requires as many KekInfos as
shares) is inline, before the DEK is split and the shares wrapped. -/
def EncryptLegacy (env : Env) (plaintext : List Nat) (config : Option EncryptConfig)
    (blobID : String) : Except Err EncryptedData :=
  let bid := if blobID = "" then env.newUUID else blobID
  let keyCfg := (config.bind (fun c => c.keyConfig)).getD default
  let dek := env.newDEK
  let sharesE : Except Err (List (List Nat)) :=
    match keyCfg.split with
    | some .noSplit =>
      if keyCfg.kekInfos.length ≠ 1 then .error .invalidNoSplitConfig
      else .ok [dek]
    | some (.shamir n k) =>
      if keyCfg.kekInfos.length ≠ n then .error .shamirKekCountMismatch
      else SplitShares env.shamirCoeffs dek n k
    | none => .error .unknownSplitAlgorithm
  match sharesE with
  | .error e => .error e
  | .ok shs =>
    match wrapSharesLegacy env shs keyCfg.kekInfos with
    | .error e => .error (.wrapSharesFailed e)
    | .ok ws =>
      let md : Metadata := { blobId := bid, keyConfig := keyCfg, shares := ws }
      match env.metadataToAAD md with
      | none => .error .serializeMetadataFailed
      | some aad =>
        match env.aeadEncrypt dek plaintext aad with
        | none => .error .aeadEncryptFailed
        | some ct => .ok { ciphertext := ct, metadata := md }

/-- The key URIs the legacy `Decrypt` returns: every KekUri of every
KeyConfig in the decrypt config, in order. -/
def legacyKeyUris (config : DecryptConfig) : List String :=
  (config.keyConfigs.map (fun kc => kc.kekInfos.filterMap (fun k =>
    match k.kekType with
    | some (.kekUri u) => some u
    | _ => none))).flatten

/-- `Decrypt` of the legacy variant: select the matching KeyConfig,
unwrap all shares (any failure fatal), reconstruct the DEK, check its
length, AEAD-decrypt, and report the KekUri URIs of the whole decrypt
config. -/
def DecryptLegacy (env : Env) (data : EncryptedData) (config : DecryptConfig) :
    Except Err DecryptedData :=
  match config.keyConfigs.find? (fun kc => decide (kc = data.metadata.keyConfig)) with
  | none => .error .noMatchingKeyConfig
  | some matching =>
    match unwrapAndValidateSharesLegacy env data.metadata.shares matching.kekInfos with
    | .error e => .error (.unwrapSharesFailed e)
    | .ok us =>
      let combinedE : Except Err (List Nat) :=
        match matching.split with
        | some .noSplit =>
          match us with
          | [s] => .ok s
          | _ => .error .noSplitShareCount
        | some (.shamir _ _) =>
          match CombineSharesLegacy us with
          | .error e => .error (.combineFailed e)
          | .ok c => .ok c
        | none => .error .unknownSplitAlgorithm
      match combinedE with
      | .error e => .error e
      | .ok combined =>
        if combined.length ≠ DEKBytes then .error .dekLengthWrong
        else
          match env.metadataToAAD data.metadata with
          | none => .error .serializeMetadataFailed
          | some aad =>
            match env.aeadDecrypt (fixDEK combined) data.ciphertext aad with
            | none => .error .aeadDecryptFailed
            | some pt =>
              .ok { plaintext := pt
                    keyUris := legacyKeyUris config
                    blobId := data.metadata.blobId }

/-! ## Concrete environments and fixtures used to evaluate the model on
specific inputs -/

/-- An inert environment: every external call fails or is trivial.
Concrete scenarios override the fields they need. -/
def inertEnv : Env where
  kms := fun _ => none
  kmsEncrypt := fun _ => none
  kmsDecrypt := fun _ => none
  initKmsOk := true
  findPublicKey := fun _ => none
  rsaEncrypt := fun _ _ => none
  findPrivateKey := fun _ => none
  rsaDecrypt := fun _ _ => none
  jwtToken := fun _ => some ("token")
  establish := fun _ => true
  ekmWrap := fun _ _ _ => none
  ekmUnwrap := fun _ _ _ => none
  ekmEndOk := fun _ => true
  hashShare := fun s => s
  metadataToAAD := fun _ => some []
  marshalMeta := fun _ => [0]
  aeadEncrypt := fun _ _ _ => none
  aeadDecrypt := fun _ _ _ => none
  readMetadata := fun _ => none
  newDEK := List.replicate 32 0
  newUUID := "uuid-fixed"
  shamirCoeffs := fun _ _ => 1

/-- A kekMetadata for an external key, for the secure-session scenarios. -/
def mdExt : KekMetadata :=
  { protectionLevel := .external, uri := "https://ekm.example/v0/key1", resourceName := "rn1" }

/-- EKM environment whose ConfidentialWrap and ConfidentialUnwrap fail. -/
def envEkmOpFail : Env :=
  { inertEnv with ekmWrap := fun _ _ _ => none, ekmUnwrap := fun _ _ _ => none }

/-- EKM environment whose operations succeed. -/
def envEkmOk : Env :=
  { inertEnv with ekmWrap := fun _ _ _ => some [9], ekmUnwrap := fun _ _ _ => some [8] }

/-- EKM environment whose operations succeed but whose EndSession fails. -/
def envEkmEndFail : Env :=
  { inertEnv with
    ekmWrap := fun _ _ _ => some [7]
    ekmUnwrap := fun _ _ _ => some [6]
    ekmEndOk := fun _ => false }

/-- KMS environment whose Decrypt RPC answers with a response the
server did not mark as request-verified, but with a correct response
checksum. -/
def envKmsUnverified : Env :=
  { inertEnv with
    kmsDecrypt := fun _ => some
      { plaintext := [], plaintextCrc32C := Int.ofNat (crc32c []),
        verifiedCiphertextCrc32C := false } }

/-- A well-formed Encrypt response: request-verified, checksummed. -/
def erGood : EncryptResponse :=
  { ciphertext := [3, 4], ciphertextCrc32C := Int.ofNat (crc32c [3, 4])
    verifiedPlaintextCrc32C := true }

/-- A well-formed Decrypt response. -/
def drGood : DecryptResponse :=
  { plaintext := [5], plaintextCrc32C := Int.ofNat (crc32c [5])
    verifiedCiphertextCrc32C := true }

/-- KMS environment for the wrap/unwrap witness: both RPCs echo
checksummed, request-verified responses. -/
def envKmsGood : Env :=
  { inertEnv with
    kmsEncrypt := fun _ => some erGood
    kmsDecrypt := fun _ => some drGood }

/-- A KekInfo whose oneof is unset. -/
def kekUnset : KekInfo := ⟨none⟩

/-- Two well-formed 33-byte Shamir shares with distinct x-coordinates,
for the threshold witness. -/
def shamirShareA : UnwrappedShare := ⟨1 :: List.replicate 32 0, "uri-a"⟩

/-- Companion share with x-coordinate 2. -/
def shamirShareB : UnwrappedShare := ⟨2 :: List.replicate 32 5, ""⟩

/-- A disabled software CryptoKey. -/
def ckDisabled : CryptoKey :=
  ⟨some ⟨.disabled, .software, none⟩⟩

/-- An enabled software CryptoKey. -/
def ckSoftware : CryptoKey :=
  ⟨some ⟨.enabled, .software, none⟩⟩

/-- An enabled EXTERNAL CryptoKey whose external protection level
options carry an empty external key URI. -/
def ckExternalEmptyUri : CryptoKey :=
  ⟨some ⟨.enabled, .external, some ⟨""⟩⟩⟩

/-- A disabled software CryptoKey under the resource name
"disabled-key", plus an RSA identity-unwrap: the decrypt unwrap-loop
scenario of claim C2. -/
def envDisabledKek : Env :=
  { inertEnv with
    kms := fun n => if n = "disabled-key" then some ckDisabled else none
    findPrivateKey := fun _ => some 0
    rsaDecrypt := fun _ c => some c }

/-- KekInfo naming the disabled KMS key. -/
def kekDisabled : KekInfo := ⟨some (.kekUri ("gcp-kms://disabled-key"))⟩

/-- KekInfo naming a locally held RSA key. -/
def kekRsa : KekInfo := ⟨some (.rsaFingerprint ("fp-1"))⟩

/-- Wrapped share under the disabled KEK. -/
def wsDisabled : WrappedShare := ⟨[1], [1]⟩

/-- Wrapped share under the RSA KEK; the identity-unwrap then matches
the recorded hash. -/
def wsRsa : WrappedShare := ⟨[2], [2]⟩

/-- KMS environment holding an enabled SOFTWARE key "projects/p/keys/k1"
and an enabled EXTERNAL key "projects/p/keys/kext" whose external
protection level options carry an empty external key URI. -/
def envKekMeta : Env :=
  { inertEnv with
    kms := fun n =>
      if n = "projects/p/keys/k1" then some ckSoftware
      else if n = "projects/p/keys/kext" then some ckExternalEmptyUri
      else none }

/-- KekInfo for the enabled software key. -/
def kekSoftware : KekInfo := ⟨some (.kekUri ("gcp-kms://projects/p/keys/k1"))⟩

/-- KekInfo for the external key with empty external key URI. -/
def kekExternalEmptyUri : KekInfo := ⟨some (.kekUri ("gcp-kms://projects/p/keys/kext"))⟩

/-- A no-split KeyConfig over the single RSA KEK. -/
def cfgRsaNoSplit : KeyConfig := ⟨[kekRsa], some .noSplit⟩

/-- A KeyConfig that only mentions a KMS key, used as a non-matching
extra entry of a decrypt config. -/
def cfgOtherKms : KeyConfig := ⟨[⟨some (.kekUri ("gcp-kms://other"))⟩], some .noSplit⟩

/-- A wrapped share whose bytes and hash are 32 zero bytes: under an
identity RSA oracle and identity hash it unwraps and validates. -/
def wsZero : WrappedShare := ⟨List.replicate 32 0, List.replicate 32 0⟩

/-- Metadata of a blob encrypted under `cfgRsaNoSplit` whose single
share unwraps (identity RSA) to a 32-byte all-zero share. -/
def mdRsaBlob : Metadata :=
  { blobId := "blob-1", keyConfig := cfgRsaNoSplit, shares := [wsZero] }

/-- Environment for the legacy decrypt scenario of claim C1: RSA
identity-unwrap and a succeeding AEAD. -/
def envLegacyRsa : Env :=
  { inertEnv with
    findPrivateKey := fun _ => some 0
    rsaDecrypt := fun _ c => some c
    aeadDecrypt := fun _ _ _ => some [1, 2, 3] }

/-- The decrypt config of the legacy C1 scenario: the matching RSA
config plus an unrelated KMS config. -/
def dcfgLegacy : DecryptConfig := ⟨[cfgRsaNoSplit, cfgOtherKms]⟩

/-- The encrypted data of the legacy C1 scenario. -/
def edLegacy : EncryptedData := { ciphertext := [9], metadata := mdRsaBlob }

/-- Environment for the streaming decrypt witness: the container
parses to `mdRsaBlob`, RSA identity-unwrap, succeeding AEAD. -/
def envStreamRsa : Env :=
  { inertEnv with
    findPrivateKey := fun _ => some 0
    rsaDecrypt := fun _ c => some c
    aeadDecrypt := fun _ _ _ => some [4, 5]
    readMetadata := fun _ => some mdRsaBlob }

/-- Environment for the streaming encrypt scenarios: no RSA public key
is available, so wrapping under `cfgRsaNoSplit` fails. -/
def envEncFailWrap : Env := inertEnv

/-- Environment for the streaming encrypt success witness. -/
def envEncOk : Env :=
  { inertEnv with
    findPublicKey := fun _ => some 0
    rsaEncrypt := fun _ s => some s
    aeadEncrypt := fun _ _ _ => some [8, 8] }

/-- Encrypt config over the single-RSA no-split KeyConfig. -/
def ecfgRsa : EncryptConfig := ⟨some cfgRsaNoSplit⟩

/-- The metadata resolved for the enabled software key. -/
def kmdK1 : KekMetadata :=
  ⟨.software, "gcp-kms://projects/p/keys/k1", "projects/p/keys/k1"⟩

/-- The result of the legacy Encrypt witness run. -/
def edEncOk : EncryptedData :=
  ⟨[8, 8], { blobId := "b", keyConfig := cfgRsaNoSplit, shares := [wsZero] }⟩

/-- Decrypt config used by the streaming decrypt witness run. -/
def dcfgStream : DecryptConfig := ⟨[cfgRsaNoSplit]⟩

/-- The result of the streaming Decrypt witness run. -/
def resStream : StetMetadataRes := { keyUris := [], blobId := "blob-1" }

/-- The effect trace of the streaming Decrypt witness run. -/
def trStream : List Effect := [.readIn, .readIn, .writeOut [4, 5]]

/-! # Theorems -/

/-! ## Helper lemmas shared by the claim proofs -/

/-- A kept share equals the candidate and passed hash validation. -/
theorem finishStep_keep (env : Env) (w : WrappedShare) (v u : UnwrappedShare)
    (h : finishStep env w v = .keep u) :
    v = u ∧ ValidateShare env.hashShare u.share w.hash = true := by
  unfold finishStep at h
  split at h
  · cases h
    exact ⟨rfl, by assumption⟩
  · cases h

/-- The hash-validation step never aborts the loop. -/
theorem finishStep_not_fatal (env : Env) (w : WrappedShare) (v : UnwrappedShare) (e : Err) :
    finishStep env w v ≠ .fatal e := by
  unfold finishStep
  split <;> simp

/-- The RSA arm never aborts the loop. -/
theorem unwrapRsaArm_not_fatal (env : Env) (w : WrappedShare) (fp : String) (e : Err) :
    unwrapRsaArm env w fp ≠ .fatal e := by
  unfold unwrapRsaArm
  split
  · simp
  · split
    · simp
    · exact finishStep_not_fatal env w _ e

/-- The KMS protection-level arm never aborts the loop. -/
theorem unwrapKmsArm_not_fatal (env : Env) (w : WrappedShare) (kmd : KekMetadata) (e : Err) :
    unwrapKmsArm env w kmd ≠ .fatal e := by
  unfold unwrapKmsArm
  split
  · split
    · simp
    · exact finishStep_not_fatal env w _ e
  · split
    · simp
    · exact finishStep_not_fatal env w _ e
  · split
    · simp
    · exact finishStep_not_fatal env w _ e
  · simp

/-- A share kept by the RSA arm was hash-validated and carries no URI. -/
theorem unwrapRsaArm_keep (env : Env) (w : WrappedShare) (fp : String) (u : UnwrappedShare)
    (h : unwrapRsaArm env w fp = .keep u) :
    u.uri = "" ∧ ValidateShare env.hashShare u.share w.hash = true := by
  unfold unwrapRsaArm at h
  split at h
  · cases h
  · split at h
    · cases h
    · obtain ⟨hv, hval⟩ := finishStep_keep env w _ u h
      exact ⟨by rw [← hv], hval⟩

/-- A share kept by the KMS arm was hash-validated and carries the
resolved URI. -/
theorem unwrapKmsArm_keep (env : Env) (w : WrappedShare) (kmd : KekMetadata) (u : UnwrappedShare)
    (h : unwrapKmsArm env w kmd = .keep u) :
    u.uri = kmd.uri ∧ ValidateShare env.hashShare u.share w.hash = true := by
  unfold unwrapKmsArm at h
  split at h
  · split at h
    · cases h
    · obtain ⟨hv, hval⟩ := finishStep_keep env w _ u h
      exact ⟨by rw [← hv], hval⟩
  · split at h
    · cases h
    · obtain ⟨hv, hval⟩ := finishStep_keep env w _ u h
      exact ⟨by rw [← hv], hval⟩
  · split at h
    · cases h
    · obtain ⟨hv, hval⟩ := finishStep_keep env w _ u h
      exact ⟨by rw [← hv], hval⟩
  · cases h

/-- The loop aborts exactly on a KEK-metadata retrieval failure for a
KekUri KEK (with the KMS client initialised). -/
theorem unwrapOne_fatal_iff (env : Env) (w : WrappedShare) (k : KekInfo) (e : Err) :
    unwrapOne env w k = .fatal e ↔
      env.initKmsOk = true ∧ (∃ uri, k.kekType = some (.kekUri uri)) ∧
      ∃ e0, getKekURIMetadata env.kms k = .error e0 ∧ e = .retrievingKekMetadata e0 := by
  constructor
  · intro h
    unfold unwrapOne at h
    split at h
    · exact absurd h (unwrapRsaArm_not_fatal env w _ e)
    · rename_i uri hk
      split at h
      · cases h
      · rename_i hinit
        split at h
        · rename_i e0 hget
          cases h
          refine ⟨by simpa using hinit, ⟨uri, hk⟩, e0, hget, rfl⟩
        · exact absurd h (unwrapKmsArm_not_fatal env w _ e)
    · cases h
  · rintro ⟨hinit, ⟨uri, hk⟩, e0, hget, rfl⟩
    unfold unwrapOne
    rw [hk]
    simp [hinit, hget]

/-- Every keep outcome was hash-validated, and its URI is empty (RSA)
or the URI resolved by getKekURIMetadata (KekUri). -/
theorem unwrapOne_keep_info (env : Env) (w : WrappedShare) (k : KekInfo) (u : UnwrappedShare)
    (h : unwrapOne env w k = .keep u) :
    ValidateShare env.hashShare u.share w.hash = true ∧
    (u.uri = "" ∨ ∃ kmd, getKekURIMetadata env.kms k = .ok kmd ∧ u.uri = kmd.uri) := by
  unfold unwrapOne at h
  split at h
  · obtain ⟨hu, hval⟩ := unwrapRsaArm_keep env w _ u h
    exact ⟨hval, .inl hu⟩
  · split at h
    · cases h
    · split at h
      · cases h
      · rename_i kmd hget
        obtain ⟨hu, hval⟩ := unwrapKmsArm_keep env w kmd u h
        exact ⟨hval, .inr ⟨kmd, hget, hu⟩⟩
  · cases h

/-- Full characterisation of a successful KEK-URI metadata resolution:
the conditions required and the shape of the resolved record. -/
theorem getKek_ok_info (kms : String → Option CryptoKey) (kek : KekInfo) (kmd : KekMetadata)
    (h : getKekURIMetadata kms kek = .ok kmd) :
    ∃ uri ck ver,
      kek.kekType = some (.kekUri uri) ∧
      strStarts uri gcpKeyUriScheme = true ∧
      kms (strTrimStart uri gcpKeyUriScheme) = some ck ∧
      ck.primary = some ver ∧
      ver.state = .enabled ∧
      ver.protectionLevel ≠ .unspecified ∧
      kmd.protectionLevel = ver.protectionLevel ∧
      kmd.resourceName = strTrimStart uri gcpKeyUriScheme ∧
      ((ver.protectionLevel ≠ .external ∧ kmd.uri = uri) ∨
       (ver.protectionLevel = .external ∧ ∃ opts,
         ver.externalProtectionLevelOptions = some opts ∧
         kmd.uri = opts.externalKeyUri)) := by
  unfold getKekURIMetadata at h
  split at h
  · rename_i uri hk
    refine ⟨uri, ?_⟩
    split at h
    · cases h
    · rename_i hpre
      split at h
      · cases h
      · rename_i ck hck
        refine ⟨ck, ?_⟩
        split at h
        · cases h
        · rename_i ver hver
          refine ⟨ver, hk, by simpa using hpre, hck, hver, ?_⟩
          split at h
          · cases h
          · rename_i hstate
            split at h
            · cases h
            · rename_i hpl
              split at h
              · rename_i hext
                split at h
                · cases h
                · rename_i opts hopts
                  cases h
                  exact ⟨by simpa using hstate, hpl, rfl, rfl,
                    .inr ⟨hext, opts, hopts, rfl⟩⟩
              · rename_i hext
                cases h
                exact ⟨by simpa using hstate, hpl, rfl, rfl, .inl ⟨hext, rfl⟩⟩
  · cases h

/-- Every share retained by the streaming unwrap loop comes from a
keep outcome of some positional pair. -/
theorem unwrapLoop_ok_mem (env : Env) :
    ∀ (ws : List WrappedShare) (ks : List KekInfo) (us : List UnwrappedShare),
      unwrapLoop env ws ks = .ok us →
      ∀ u ∈ us, ∃ w k, unwrapOne env w k = .keep u := by
  intro ws
  induction ws with
  | nil =>
    intro ks us h u hu
    cases ks <;> (unfold unwrapLoop at h; cases h; cases hu)
  | cons w ws ih =>
    intro ks us h u hu
    cases ks with
    | nil =>
      unfold unwrapLoop at h
      cases h
      cases hu
    | cons k ks =>
      unfold unwrapLoop at h
      split at h
      · cases h
      · exact ih ks us h u hu
      · rename_i u0 hkeep
        split at h
        · cases h
        · rename_i us0 hrest
          cases h
          rcases List.mem_cons.mp hu with hu | hu
          · exact ⟨w, k, hu ▸ hkeep⟩
          · exact ih ks us0 hrest u hu

/-- Claim C10: calling Encrypt with a nil EncryptConfig, or Decrypt
with a nil DecryptConfig, returns an error immediately: the input
stream is never read and nothing is written to the output stream. -/
theorem nil_config_rejected_without_io (env : Env) (input : List Nat) (bid : String) :
    EncryptS env input none bid = (.error .nilEncryptConfig, []) ∧
    DecryptS env input none = (.error .nilDecryptConfig, []) :=
  ⟨rfl, rfl⟩

/-- Claim C4, counterexample: when ConfidentialWrap (or
ConfidentialUnwrap) itself fails, the client returns at once and never
calls EndSession, so the session is not "torn down by exactly one
EndSession call" on the failure side of the claim. -/
theorem confidentialWrap_failure_skips_endSession :
    (ekmSecureSessionWrap envEkmOpFail [1] mdExt).1 = .error .confidentialWrapFailed ∧
    (ekmSecureSessionWrap envEkmOpFail [1] mdExt).2.count .endSession = 0 ∧
    (ekmSecureSessionUnwrap envEkmOpFail [1] mdExt).1 = .error .confidentialUnwrapFailed ∧
    (ekmSecureSessionUnwrap envEkmOpFail [1] mdExt).2.count .endSession = 0 :=
  ⟨rfl, rfl, rfl, rfl⟩

/-- Claim C4 (amended): once the bearer token is issued and the secure
session established, a successful ConfidentialWrap or
ConfidentialUnwrap is followed by exactly one EndSession call, while a
failed one is followed by none; each call performs exactly one
confidential operation. -/
theorem endSession_call_pattern (env : Env) (s : List Nat) (md : KekMetadata)
    (htok : (env.jwtToken (parseEKMKeyURI md.uri).1).isSome = true)
    (hest : env.establish md.uri = true) :
    ((ekmSecureSessionWrap env s md).2.count .endSession =
      if (env.ekmWrap (parseEKMKeyURI md.uri).2 md.resourceName s).isSome then 1 else 0) ∧
    (ekmSecureSessionWrap env s md).2.count .confidentialWrap = 1 ∧
    ((ekmSecureSessionUnwrap env s md).2.count .endSession =
      if (env.ekmUnwrap (parseEKMKeyURI md.uri).2 md.resourceName s).isSome then 1 else 0) ∧
    (ekmSecureSessionUnwrap env s md).2.count .confidentialUnwrap = 1 := by
  obtain ⟨tok, htok'⟩ := Option.isSome_iff_exists.mp htok
  simp only [ekmSecureSessionWrap, ekmSecureSessionUnwrap, htok', hest]
  cases hw : env.ekmWrap (parseEKMKeyURI md.uri).2 md.resourceName s <;>
    cases hu : env.ekmUnwrap (parseEKMKeyURI md.uri).2 md.resourceName s <;>
      cases he : env.ekmEndOk md.uri <;>
        simp [hw, hu, he]

/-- Claim C4, witness for the amended theorem at a concrete
environment whose operations succeed. -/
theorem endSession_call_pattern_witness :
    ((ekmSecureSessionWrap envEkmOk [1] mdExt).2.count .endSession =
      if (envEkmOk.ekmWrap (parseEKMKeyURI mdExt.uri).2 mdExt.resourceName [1]).isSome then 1 else 0) ∧
    (ekmSecureSessionWrap envEkmOk [1] mdExt).2.count .confidentialWrap = 1 ∧
    ((ekmSecureSessionUnwrap envEkmOk [1] mdExt).2.count .endSession =
      if (envEkmOk.ekmUnwrap (parseEKMKeyURI mdExt.uri).2 mdExt.resourceName [1]).isSome then 1 else 0) ∧
    (ekmSecureSessionUnwrap envEkmOk [1] mdExt).2.count .confidentialUnwrap = 1 :=
  endSession_call_pattern envEkmOk [1] mdExt rfl rfl

/-- Claim C5, counterexample: a ConfidentialWrap succeeds (the EKM
returns the wrapped blob [7]) but EndSession then fails; the client
discards the wrapped result and fails the whole operation with the
EndSession error, so the failure is not a mere warning. -/
theorem endSession_failure_discards_result :
    envEkmEndFail.ekmWrap (parseEKMKeyURI mdExt.uri).2 mdExt.resourceName [1] = some [7] ∧
    (ekmSecureSessionWrap envEkmEndFail [1] mdExt).1 = .error .endSessionFailed ∧
    envEkmEndFail.ekmUnwrap (parseEKMKeyURI mdExt.uri).2 mdExt.resourceName [1] = some [6] ∧
    (ekmSecureSessionUnwrap envEkmEndFail [1] mdExt).1 = .error .endSessionFailed :=
  ⟨rfl, rfl, rfl, rfl⟩

/-- Claim C5 (amended): if EndSession fails after a successful
ConfidentialWrap or ConfidentialUnwrap, the operation as a whole fails
with the EndSession error and the wrapped/unwrapped result is not
returned to the caller. -/
theorem endSession_failure_is_error (env : Env) (s b : List Nat) (md : KekMetadata)
    (htok : (env.jwtToken (parseEKMKeyURI md.uri).1).isSome = true)
    (hest : env.establish md.uri = true)
    (hend : env.ekmEndOk md.uri = false) :
    (env.ekmWrap (parseEKMKeyURI md.uri).2 md.resourceName s = some b →
      (ekmSecureSessionWrap env s md).1 = .error .endSessionFailed) ∧
    (env.ekmUnwrap (parseEKMKeyURI md.uri).2 md.resourceName s = some b →
      (ekmSecureSessionUnwrap env s md).1 = .error .endSessionFailed) := by
  obtain ⟨tok, htok'⟩ := Option.isSome_iff_exists.mp htok
  constructor <;> intro hop <;>
    simp [ekmSecureSessionWrap, ekmSecureSessionUnwrap, htok', hest, hop, hend]

/-- Claim C5, witness for the amended theorem. -/
theorem endSession_failure_is_error_witness :
    (ekmSecureSessionWrap envEkmEndFail [1] mdExt).1 = .error .endSessionFailed ∧
    (ekmSecureSessionUnwrap envEkmEndFail [1] mdExt).1 = .error .endSessionFailed :=
  ⟨(endSession_failure_is_error envEkmEndFail [1] [7] mdExt rfl rfl rfl).1 rfl,
   (endSession_failure_is_error envEkmEndFail [1] [6] mdExt rfl rfl rfl).2 rfl⟩

/-- Claim C6, counterexample: on the unwrap path the Cloud KMS Decrypt
response arrives with `verified_ciphertext_crc32c = false` (the server
did not acknowledge verifying the request checksum), yet
`unwrapKMSShare` succeeds because the response-payload checksum
matches: the client does not assert server-side request verification on
the unwrap path. -/
theorem unwrapKMS_ignores_verified_flag :
    (envKmsUnverified.kmsDecrypt
        { name := "k", ciphertext := [1], ciphertextCrc32C := Int.ofNat (crc32c [1]) }).map
      (fun r => r.verifiedCiphertextCrc32C) = some false ∧
    unwrapKMSShare envKmsUnverified [1] "k" = .ok [] :=
  ⟨rfl, rfl⟩

/-- Claim C6 (amended): both KMS paths attach the CRC32C (Castagnoli)
checksum of the request payload; the wrap path additionally requires
the server-verified flag for the request checksum and a matching
response checksum, while the unwrap path requires only a matching
response checksum and never reads the response's verified flag; each
failed check yields the corresponding integrity error. -/
theorem kms_crc_checks (env : Env) (s : List Nat) (n : String)
    (er : EncryptResponse) (dr : DecryptResponse) :
    (env.kmsEncrypt { name := n, plaintext := s, plaintextCrc32C := Int.ofNat (crc32c s) } =
        some er →
      (wrapKMSShare env s n = .ok er.ciphertext ↔
        er.verifiedPlaintextCrc32C = true ∧
        Int.ofNat (crc32c er.ciphertext) = er.ciphertextCrc32C) ∧
      (er.verifiedPlaintextCrc32C = false →
        wrapKMSShare env s n = .error .encryptRequestCorrupted) ∧
      (er.verifiedPlaintextCrc32C = true →
        Int.ofNat (crc32c er.ciphertext) ≠ er.ciphertextCrc32C →
        wrapKMSShare env s n = .error .encryptResponseCorrupted)) ∧
    (env.kmsDecrypt { name := n, ciphertext := s, ciphertextCrc32C := Int.ofNat (crc32c s) } =
        some dr →
      (unwrapKMSShare env s n = .ok dr.plaintext ↔
        Int.ofNat (crc32c dr.plaintext) = dr.plaintextCrc32C) ∧
      (Int.ofNat (crc32c dr.plaintext) ≠ dr.plaintextCrc32C →
        unwrapKMSShare env s n = .error .decryptResponseCorrupted)) := by
  constructor
  · intro h
    by_cases hv : er.verifiedPlaintextCrc32C = true <;>
      by_cases hc : Int.ofNat (crc32c er.ciphertext) = er.ciphertextCrc32C <;>
        simp_all [wrapKMSShare]
  · intro h
    by_cases hc : Int.ofNat (crc32c dr.plaintext) = dr.plaintextCrc32C <;>
      simp_all [unwrapKMSShare]

/-- Claim C6, witness for the amended theorem at a concrete KMS
environment answering well-formed responses. -/
theorem kms_crc_checks_witness :
    wrapKMSShare envKmsGood [1] "key" = .ok erGood.ciphertext ∧
    unwrapKMSShare envKmsGood [1] "key" = .ok drGood.plaintext :=
  ⟨((kms_crc_checks envKmsGood [1] "key" erGood drGood).1 rfl).1.mpr ⟨rfl, rfl⟩,
   ((kms_crc_checks envKmsGood [1] "key" erGood drGood).2 rfl).1.mpr rfl⟩

/-- Claim C7: resolving a KekUri KEK succeeds only when the URI begins
with gcp-kms://, the key's primary version is ENABLED and its
protection level specified; an EXTERNAL key must carry external
protection level options, whose external key URI is then the recorded
URI, while non-EXTERNAL keys record the cloud KMS URI itself. -/
theorem getKekURIMetadata_success_conditions (kms : String → Option CryptoKey)
    (kek : KekInfo) (kmd : KekMetadata)
    (h : getKekURIMetadata kms kek = .ok kmd) :
    ∃ uri ck ver,
      kek.kekType = some (.kekUri uri) ∧
      strStarts uri gcpKeyUriScheme = true ∧
      kms (strTrimStart uri gcpKeyUriScheme) = some ck ∧
      ck.primary = some ver ∧
      ver.state = .enabled ∧
      ver.protectionLevel ≠ .unspecified ∧
      kmd.protectionLevel = ver.protectionLevel ∧
      kmd.resourceName = strTrimStart uri gcpKeyUriScheme ∧
      ((ver.protectionLevel ≠ .external ∧ kmd.uri = uri) ∨
       (ver.protectionLevel = .external ∧ ∃ opts,
         ver.externalProtectionLevelOptions = some opts ∧
         kmd.uri = opts.externalKeyUri)) :=
  getKek_ok_info kms kek kmd h

/-- Claim C7, witness: the conditions instantiated at the concrete
enabled software key. -/
theorem getKekURIMetadata_success_conditions_witness :
    ∃ uri ck ver,
      kekSoftware.kekType = some (.kekUri uri) ∧
      strStarts uri gcpKeyUriScheme = true ∧
      envKekMeta.kms (strTrimStart uri gcpKeyUriScheme) = some ck ∧
      ck.primary = some ver ∧
      ver.state = .enabled ∧
      ver.protectionLevel ≠ .unspecified ∧
      kmdK1.protectionLevel = ver.protectionLevel ∧
      kmdK1.resourceName = strTrimStart uri gcpKeyUriScheme ∧
      ((ver.protectionLevel ≠ .external ∧ kmdK1.uri = uri) ∨
       (ver.protectionLevel = .external ∧ ∃ opts,
         ver.externalProtectionLevelOptions = some opts ∧
         kmdK1.uri = opts.externalKeyUri)) :=
  getKekURIMetadata_success_conditions envKekMeta.kms kekSoftware kmdK1 rfl

/-- Claim C8: Decrypt selects a KeyConfig of the decrypt config equal
to the KeyConfig carried in the blob metadata (protobuf message
equality, which is structural equality of the embedded messages) and
fails with NoMatchingKeyConfig when no configured KeyConfig equals
it. -/
theorem decrypt_keyconfig_matching (env : Env) (input : List Nat)
    (cfg : DecryptConfig) (md : Metadata)
    (h : env.readMetadata input = some md) :
    ((∀ kc ∈ cfg.keyConfigs, kc ≠ md.keyConfig) →
      DecryptS env input (some cfg) = (.error .noMatchingKeyConfig, [.readIn])) ∧
    (∀ r tr, DecryptS env input (some cfg) = (.ok r, tr) →
      md.keyConfig ∈ cfg.keyConfigs) := by
  constructor
  · intro hall
    have hfind : cfg.keyConfigs.find? (fun kc => decide (kc = md.keyConfig)) = none :=
      List.find?_eq_none.mpr (fun kc hkc => by simpa using hall kc hkc)
    simp [DecryptS, h, hfind]
  · intro r tr h2
    simp only [DecryptS, h] at h2
    split at h2
    · simp at h2
    · rename_i matching hfind
      have hmem := List.mem_of_find?_eq_some hfind
      have heq : matching = md.keyConfig := by simpa using List.find?_some hfind
      exact heq ▸ hmem

/-- Claim C8, witness: with no configured KeyConfig equal to the
metadata's, Decrypt fails with NoMatchingKeyConfig. -/
theorem decrypt_keyconfig_matching_witness :
    DecryptS envStreamRsa [0] (some ⟨[cfgOtherKms]⟩) =
      (.error .noMatchingKeyConfig, [.readIn]) :=
  (decrypt_keyconfig_matching envStreamRsa [0] ⟨[cfgOtherKms]⟩ mdRsaBlob rfl).1
    (by decide)

/-- Claim C3: if wrapping any share fails during Encrypt, the whole
operation aborts with the wrap error and nothing has been written to
the output stream; whenever Encrypt does write, the first write is the
container header, whose first five bytes are the STET magic and the
version byte, so the output is either empty or starts a valid
container. -/
theorem encrypt_no_output_before_wrap_success (env : Env) (input : List Nat)
    (cfg : EncryptConfig) (bid : String) :
    (∀ shareList e,
      CreateDEKShares env.shamirCoeffs env.newDEK (cfg.keyConfig.getD default) =
        .ok shareList →
      wrapShares env shareList (cfg.keyConfig.getD default).kekInfos = .error e →
      EncryptS env input (some cfg) bid = (.error (.wrapSharesFailed e), [])) ∧
    (∀ r tr, EncryptS env input (some cfg) bid = (r, tr) → tr ≠ [] →
      ∃ n rest, tr = .writeOut (stetHeader n) :: rest ∧
        (stetHeader n).take 5 = [0x53, 0x54, 0x45, 0x54, 0x01]) := by
  constructor
  · intro shareList e h1 h2
    simp [EncryptS, h1, h2]
  · intro r tr h2 hne
    simp only [EncryptS] at h2
    split at h2
    · simp only [Prod.mk.injEq] at h2
      obtain ⟨hr, ht⟩ := h2
      subst ht
      exact absurd rfl hne
    · split at h2
      · simp only [Prod.mk.injEq] at h2
        obtain ⟨hr, ht⟩ := h2
        subst ht
        exact absurd rfl hne
      · split at h2
        · simp only [Prod.mk.injEq] at h2
          obtain ⟨hr, ht⟩ := h2
          subst ht
          exact absurd rfl hne
        · split at h2
          · simp only [Prod.mk.injEq] at h2
            obtain ⟨hr, ht⟩ := h2
            subst ht
            exact ⟨_, _, rfl, rfl⟩
          · simp only [Prod.mk.injEq] at h2
            obtain ⟨hr, ht⟩ := h2
            subst ht
            exact ⟨_, _, rfl, rfl⟩

/-- Claim C3, witness: with no RSA public key available, wrapping the
single share fails and Encrypt produces the wrap error with an empty
output trace. -/
theorem encrypt_no_output_before_wrap_success_witness :
    EncryptS envEncFailWrap [1, 2] (some ecfgRsa) "b" =
      (.error (.wrapSharesFailed .noMatchingRsaKey), []) :=
  (encrypt_no_output_before_wrap_success envEncFailWrap [1, 2] ecfgRsa ("b")).1
    [List.replicate 32 0] .noMatchingRsaKey rfl rfl

/-- Claim C9: the legacy Encrypt succeeds only when its KeyConfig
passes validation: a set splitting algorithm; exactly one KekInfo for
NoSplit; and for Shamir{shares=n, threshold=k} exactly n KekInfos with
2 ≤ k ≤ n ≤ 255 (the bound check lives in the share codec's
SplitShares, modelled from the spec). -/
theorem encrypt_validates_key_config (env : Env) (pt : List Nat)
    (config : Option EncryptConfig) (bid : String) (out : EncryptedData)
    (h : EncryptLegacy env pt config bid = .ok out) :
    ((config.bind (fun c => c.keyConfig)).getD default).split ≠ none ∧
    (((config.bind (fun c => c.keyConfig)).getD default).split = some .noSplit →
      ((config.bind (fun c => c.keyConfig)).getD default).kekInfos.length = 1) ∧
    (∀ n k,
      ((config.bind (fun c => c.keyConfig)).getD default).split = some (.shamir n k) →
      ((config.bind (fun c => c.keyConfig)).getD default).kekInfos.length = n ∧
      2 ≤ k ∧ k ≤ n ∧ n ≤ 255) := by
  simp only [EncryptLegacy] at h
  generalize hkc : (config.bind (fun c => c.keyConfig)).getD default = kc at h ⊢
  split at h
  · simp at h
  · rename_i shs hsplit
    split at hsplit
    · -- NoSplit
      rename_i hspl
      split at hsplit
      · simp at hsplit
      · rename_i hlen
        refine ⟨by rw [hspl]; simp, fun _ => by simpa using hlen, ?_⟩
        intro n k hsh
        rw [hspl] at hsh
        simp at hsh
    · -- Shamir
      rename_i n0 k0 hspl
      split at hsplit
      · simp at hsplit
      · rename_i hlen
        simp only [SplitShares] at hsplit
        split at hsplit
        · rename_i hbound
          refine ⟨by rw [hspl]; simp, ?_, ?_⟩
          · intro hns
            rw [hspl] at hns
            simp at hns
          · intro n k hsh
            rw [hspl] at hsh
            simp only [Option.some.injEq, KeySplit.shamir.injEq] at hsh
            obtain ⟨rfl, rfl⟩ := hsh
            exact ⟨by simpa using hlen, hbound.1, hbound.2.1, hbound.2.2⟩
        · simp at hsplit
    · -- unset splitting algorithm
      simp at hsplit

/-- Claim C9, witness: a successful legacy Encrypt under the no-split
single-RSA config, yielding the validated invariants. -/
theorem encrypt_validates_key_config_witness :
    (((some ecfgRsa).bind (fun c => c.keyConfig)).getD default).split ≠ none ∧
    ((((some ecfgRsa).bind (fun c => c.keyConfig)).getD default).split = some .noSplit →
      (((some ecfgRsa).bind (fun c => c.keyConfig)).getD default).kekInfos.length = 1) ∧
    (∀ n k,
      (((some ecfgRsa).bind (fun c => c.keyConfig)).getD default).split =
        some (.shamir n k) →
      (((some ecfgRsa).bind (fun c => c.keyConfig)).getD default).kekInfos.length = n ∧
      2 ≤ k ∧ k ≤ n ∧ n ≤ 255) :=
  encrypt_validates_key_config envEncOk [1, 2] (some ecfgRsa) "b" edEncOk rfl

/-- Claim C2, counterexample: the first share's KEK is a disabled
Cloud KMS key and the second share is recoverable through a local RSA
key, yet unwrapAndValidateShares aborts with the KEK-metadata error
instead of recording the failure and continuing: a disabled KEK is not
a skipped per-share failure but a fatal one. -/
theorem unwrap_disabled_kek_aborts_loop :
    unwrapAndValidateShares envDisabledKek [wsDisabled, wsRsa] [kekDisabled, kekRsa] =
      .error (.retrievingKekMetadata .kekNotEnabled) ∧
    unwrapOne envDisabledKek wsRsa kekRsa = .keep ⟨[2], ""⟩ :=
  ⟨rfl, rfl⟩

/-- Claim C2 (amended): the streaming unwrap loop walks the
share/KekInfo pairs positionally; a skipped per-share failure (missing
RSA key, failed OAEP decryption, KMS client initialisation, KMS unwrap
RPC, confidential unwrap, unsupported protection level, unsupported
KekInfo type, hash mismatch) lets the loop continue, a kept share was
hash-verified before retention, but a KEK-metadata retrieval failure
(disabled KEK, unavailable GetCryptoKey, unspecified protection level,
missing external options, bad URI scheme) aborts the whole call; with
at least the threshold of retained well-formed Shamir shares,
reconstruction proceeds. -/
theorem unwrap_loop_semantics (env : Env) :
    (∀ (ws : List WrappedShare) (ks : List KekInfo), ws.length = ks.length →
      unwrapAndValidateShares env ws ks = unwrapLoop env ws ks) ∧
    (∀ w ws k ks, unwrapOne env w k = .skip →
      unwrapLoop env (w :: ws) (k :: ks) = unwrapLoop env ws ks) ∧
    (∀ w ws k ks u, unwrapOne env w k = .keep u →
      ValidateShare env.hashShare u.share w.hash = true ∧
      unwrapLoop env (w :: ws) (k :: ks) =
        (unwrapLoop env ws ks).map (fun us => u :: us)) ∧
    (∀ w k e, unwrapOne env w k = .fatal e ↔
      env.initKmsOk = true ∧ (∃ uri, k.kekType = some (.kekUri uri)) ∧
      ∃ e0, getKekURIMetadata env.kms k = .error e0 ∧ e = .retrievingKekMetadata e0) ∧
    (∀ (kis : List KekInfo) (n k : Nat) (us : List UnwrappedShare),
      1 ≤ k → k ≤ us.length →
      (∀ u ∈ us, u.share.length = 33) →
      (us.map (fun u => u.share.headD 0)).Nodup →
      ∃ d, CombineUnwrappedShares ⟨kis, some (.shamir n k)⟩ us = .ok d) := by
  refine ⟨?_, ?_, ?_, ?_, ?_⟩
  · intro ws ks hlen
    unfold unwrapAndValidateShares
    simp [hlen]
  · intro w ws k ks hskip
    simp only [unwrapLoop, hskip]
  · intro w ws k ks u hkeep
    refine ⟨(unwrapOne_keep_info env w k u hkeep).1, ?_⟩
    simp only [unwrapLoop, hkeep]
    cases hrest : unwrapLoop env ws ks <;> rfl
  · intro w k e
    exact unwrapOne_fatal_iff env w k e
  · intro kis n k us hk hkus h33 hnodup
    refine ⟨interpolateShares ((us.map (fun u => u.share)).take k), ?_⟩
    have hne : us ≠ [] := by
      intro h0
      subst h0
      simp at hkus
      omega
    have hxs : (us.map (fun u => u.share)).map (fun s => s.headD 0) =
        us.map (fun u => u.share.headD 0) := by
      rw [List.map_map]
      rfl
    have hnd : ((us.map (fun u => u.share)).map (fun s => s.headD 0)).Nodup := by
      rw [hxs]
      exact hnodup
    have hdedup : ((us.map (fun u => u.share)).map (fun s => s.headD 0)).dedup =
        (us.map (fun u => u.share)).map (fun s => s.headD 0) :=
      List.dedup_eq_self.mpr hnd
    show shamirCombine k (us.map (fun u => u.share)) = _
    unfold shamirCombine
    split
    · rename_i hA
      exfalso
      obtain ⟨s, hs, hlt⟩ := List.any_eq_true.mp hA
      obtain ⟨u, hu, rfl⟩ := List.mem_map.mp hs
      have h1 := h33 u hu
      rw [h1] at hlt
      simp at hlt
    · split
      · rename_i hB
        have hall : ((us.map (fun u => u.share)).all
            (fun s => decide (s.length = ((us.map (fun u => u.share)).headD []).length))) =
            true := by
          refine List.all_eq_true.mpr ?_
          intro s hs
          obtain ⟨u, hu, rfl⟩ := List.mem_map.mp hs
          cases us with
          | nil => exact absurd rfl hne
          | cons u0 us' =>
            have h0 := h33 u0 (List.mem_cons_self u0 us')
            have h1 := h33 u (by simpa using hu)
            simp [h0, h1]
        exact absurd hB (by rw [hall]; simp)
      · split
        · rename_i hC
          exact absurd (by rw [hdedup]) hC
        · split
          · rename_i hD
            rw [hdedup] at hD
            simp only [List.length_map] at hD
            omega
          · rfl

/-- Claim C2, witness for the amended theorem, exercising every part
at concrete inputs: the length gate, a skipped share, a kept and
hash-verified share, a fatal KEK-metadata failure and a threshold
reconstruction. -/
theorem unwrap_loop_semantics_witness :
    unwrapAndValidateShares envDisabledKek [wsRsa] [kekRsa] =
      unwrapLoop envDisabledKek [wsRsa] [kekRsa] ∧
    unwrapLoop envDisabledKek [wsDisabled, wsRsa] [kekUnset, kekRsa] =
      unwrapLoop envDisabledKek [wsRsa] [kekRsa] ∧
    (ValidateShare envDisabledKek.hashShare [2] wsRsa.hash = true ∧
      unwrapLoop envDisabledKek [wsRsa, wsRsa] [kekRsa, kekRsa] =
        (unwrapLoop envDisabledKek [wsRsa] [kekRsa]).map (fun us => ⟨[2], ""⟩ :: us)) ∧
    unwrapOne envDisabledKek wsDisabled kekDisabled =
      .fatal (.retrievingKekMetadata .kekNotEnabled) ∧
    ∃ d, CombineUnwrappedShares ⟨[kekRsa, kekRsa, kekRsa], some (.shamir 3 2)⟩
        [shamirShareA, shamirShareB] = .ok d :=
  ⟨(unwrap_loop_semantics envDisabledKek).1 [wsRsa] [kekRsa] rfl,
   (unwrap_loop_semantics envDisabledKek).2.1 wsDisabled [wsRsa] kekUnset [kekRsa] rfl,
   (unwrap_loop_semantics envDisabledKek).2.2.1 wsRsa [wsRsa] kekRsa [kekRsa] ⟨[2], ""⟩ rfl,
   ((unwrap_loop_semantics envDisabledKek).2.2.2.1 wsDisabled kekDisabled _).mpr
     ⟨rfl, ⟨"gcp-kms://disabled-key", rfl⟩, .kekNotEnabled, rfl, rfl⟩,
   (unwrap_loop_semantics envDisabledKek).2.2.2.2 [kekRsa, kekRsa, kekRsa] 3 2
     [shamirShareA, shamirShareB] (by decide) (by decide) (by decide) (by decide)⟩

/-- Claim C1, counterexample: the legacy Decrypt succeeds on a blob
whose only share is RSA-wrapped (the matching KeyConfig holds a single
RsaFingerprint KEK, so no KMS or external share is consumed), yet
key_uris_used comes back as ["gcp-kms://other"], the KekUri of an
unrelated KeyConfig of the decrypt config: the returned URIs are not
the URIs of shares consumed in reconstructing the DEK. -/
theorem legacy_decrypt_reports_unconsumed_uri :
    mdRsaBlob.keyConfig.kekInfos = [kekRsa] ∧
    kekRsa.kekType = some (.rsaFingerprint ("fp-1")) ∧
    DecryptLegacy envLegacyRsa edLegacy dcfgLegacy =
      .ok { plaintext := [1, 2, 3], keyUris := ["gcp-kms://other"], blobId := "blob-1" } :=
  ⟨rfl, rfl, rfl⟩

/-- Claim C1 (amended): in the streaming client, every successful
Decrypt reports exactly the non-empty URIs of the shares that were
unwrapped, hash-verified and handed to DEK reconstruction; a share
kept through a KekUri KEK carries the URI resolved by
getKekURIMetadata, which is the external key URI for an EXTERNAL key
and the cloud KMS URI otherwise, and an RSA share carries the empty
URI and is not reported.  (The legacy variant instead reports every
KekUri mentioned anywhere in the decrypt config.) -/
theorem streaming_decrypt_reports_consumed_uris (env : Env) (input : List Nat)
    (cfg : DecryptConfig) (r : StetMetadataRes) (tr : List Effect)
    (h : DecryptS env input (some cfg) = (.ok r, tr)) :
    ∃ md matching us,
      env.readMetadata input = some md ∧
      cfg.keyConfigs.find? (fun kc => decide (kc = md.keyConfig)) = some matching ∧
      unwrapAndValidateShares env md.shares matching.kekInfos = .ok us ∧
      r.keyUris = us.filterMap (fun u => if u.uri = "" then none else some u.uri) ∧
      (∃ d, CombineUnwrappedShares matching us = .ok d) ∧
      ∀ u ∈ us, ∃ w kek, unwrapOne env w kek = .keep u ∧
        ValidateShare env.hashShare u.share w.hash = true ∧
        (u.uri = "" ∨ ∃ kmd, getKekURIMetadata env.kms kek = .ok kmd ∧ u.uri = kmd.uri ∧
          ∃ uri ck ver,
            kek.kekType = some (.kekUri uri) ∧
            env.kms (strTrimStart uri gcpKeyUriScheme) = some ck ∧
            ck.primary = some ver ∧
            kmd.protectionLevel = ver.protectionLevel ∧
            ((ver.protectionLevel ≠ .external ∧ u.uri = uri) ∨
             (ver.protectionLevel = .external ∧ ∃ opts,
               ver.externalProtectionLevelOptions = some opts ∧
               u.uri = opts.externalKeyUri))) := by
  simp only [DecryptS] at h
  split at h
  · simp at h
  rename_i md hmd
  split at h
  · simp at h
  rename_i matching hfind
  split at h
  · simp at h
  rename_i us hunwrap
  split at h
  · simp at h
  rename_i combined hcomb
  split at h
  · simp at h
  rename_i aad haad
  split at h
  · simp at h
  rename_i pt hpt
  simp only [Prod.mk.injEq, Except.ok.injEq] at h
  obtain ⟨hr, htr⟩ := h
  refine ⟨md, matching, us, hmd, hfind, hunwrap, ?_, ⟨combined, hcomb⟩, ?_⟩
  · rw [← hr]
  · intro u hu
    have hloop : unwrapLoop env md.shares matching.kekInfos = .ok us := by
      unfold unwrapAndValidateShares at hunwrap
      split at hunwrap
      · simp at hunwrap
      · exact hunwrap
    obtain ⟨w, kek, hkeep⟩ := unwrapLoop_ok_mem env md.shares matching.kekInfos us hloop u hu
    obtain ⟨hval, huri⟩ := unwrapOne_keep_info env w kek u hkeep
    refine ⟨w, kek, hkeep, hval, ?_⟩
    rcases huri with huri | ⟨kmd, hget, hurieq⟩
    · exact .inl huri
    · right
      obtain ⟨uri, ck, ver, hk, hpre, hck, hver, hstate, hpl, hplmd, hres, hcase⟩ :=
        getKek_ok_info env.kms kek kmd hget
      refine ⟨kmd, hget, hurieq, uri, ck, ver, hk, hck, hver, hplmd, ?_⟩
      rcases hcase with ⟨hnext, hu2⟩ | ⟨hext, opts, hopts, hu2⟩
      · exact .inl ⟨hnext, by rw [hurieq, hu2]⟩
      · exact .inr ⟨hext, opts, hopts, by rw [hurieq, hu2]⟩

/-- Claim C1, witness for the amended theorem: a successful streaming
Decrypt of the RSA-only blob, whose reported URI list is empty. -/
theorem streaming_decrypt_reports_consumed_uris_witness :
    ∃ md matching us,
      envStreamRsa.readMetadata [0] = some md ∧
      dcfgStream.keyConfigs.find? (fun kc => decide (kc = md.keyConfig)) = some matching ∧
      unwrapAndValidateShares envStreamRsa md.shares matching.kekInfos = .ok us ∧
      resStream.keyUris = us.filterMap (fun u => if u.uri = "" then none else some u.uri) ∧
      (∃ d, CombineUnwrappedShares matching us = .ok d) ∧
      ∀ u ∈ us, ∃ w kek, unwrapOne envStreamRsa w kek = .keep u ∧
        ValidateShare envStreamRsa.hashShare u.share w.hash = true ∧
        (u.uri = "" ∨ ∃ kmd, getKekURIMetadata envStreamRsa.kms kek = .ok kmd ∧
          u.uri = kmd.uri ∧
          ∃ uri ck ver,
            kek.kekType = some (.kekUri uri) ∧
            envStreamRsa.kms (strTrimStart uri gcpKeyUriScheme) = some ck ∧
            ck.primary = some ver ∧
            kmd.protectionLevel = ver.protectionLevel ∧
            ((ver.protectionLevel ≠ .external ∧ u.uri = uri) ∨
             (ver.protectionLevel = .external ∧ ∃ opts,
               ver.externalProtectionLevelOptions = some opts ∧
               u.uri = opts.externalKeyUri))) :=
  streaming_decrypt_reports_consumed_uris envStreamRsa [0] dcfgStream resStream trStream rfl

end Stet
